import Mathlib

/-!
Verification development for the nanobot subagent core: a shallow
embedding of `nanobot/agent/subagent.py`, `nanobot/providers/litellm_provider.py`
and `nanobot/providers/openai_sdk_provider.py`, together with theorems that
settle the stated claims about the code.

Python strings are modelled as lists of characters (`Py`); stateful I/O
(the LiteLLM transport, the OpenCode HTTP call, the OpenAI SDK call, the
`json.loads` parser, tool execution) is modelled by explicit oracles passed
as function arguments, so that each source function becomes a pure Lean
function of its inputs and of the oracle outcomes.
-/

namespace Nanobot

/-- Python strings are modelled as lists of characters. -/
abbrev Py := List Char

/-- Coerce a Lean string literal to the Python-string model. -/
def py (s : String) : Py := s.toList

/-- Python `str.lower()` (ASCII-adequate model). -/
def pyLower (s : Py) : Py := s.map Char.toLower

/-- Python substring test `needle in hay`: some suffix of `hay` starts with `needle`. -/
def isSubstrOf (needle : Py) : Py → Bool
  | [] => needle.isPrefixOf []
  | c :: t => needle.isPrefixOf (c :: t) || isSubstrOf needle t

/-- Python `s.split(sep, 1)[1]` for a one-character separator `'/'`:
everything after the first slash (callers in the source only invoke it
when a slash is present). -/
def afterFirstSlash : Py → Py
  | [] => []
  | c :: t => if c = '/' then t else afterFirstSlash t

/-- Python `s.split("/")[-1]`: the suffix after the last slash (the whole
string when it has no slash). -/
def lastComponent : Py → Py
  | [] => []
  | c :: t => if c = '/' then lastComponent t else if '/' ∈ t then lastComponent t else c :: t

/-- Python `x or default` for an optional string `x`: `None` and the empty
string are falsy and select the default. -/
def pyOr (x : Option Py) (d : Py) : Py :=
  match x with
  | some v => if v = [] then d else v
  | none => d

/-- Model of a Python/JSON value, rich enough for tool-call arguments. -/
inductive PyVal where
  | null
  | bool (b : Bool)
  | int (n : Int)
  | str (s : Py)
  | list (xs : List PyVal)
  | dict (fields : List (Py × PyVal))

/-! ## Data model (`nanobot/providers/base.py` is not under `src/`).

Modelled from the spec: `ToolCallRequest` carries `id` (opaque correlation
token), `name`, and `arguments` (mapping); `LLMResponse` carries nullable
`content`, a possibly-empty `tool_calls` sequence, `finish_reason`, a usage
mapping of token counts, and the derived `has_tool_calls`, true iff
`tool_calls` is non-empty. -/

/-- Modelled from the spec: a tool call requested by the model
(`ToolCallRequest` in `nanobot/providers/base.py`, which is not under
`src/`). -/
structure ToolCallRequest where
  id : Py
  name : Py
  arguments : PyVal

/-- Modelled from the spec: the uniform provider result shape
(`LLMResponse` in `nanobot/providers/base.py`, which is not under `src/`).
`usage` is a mapping from token-count names to counts; absent usage data is
the empty mapping. -/
structure LLMResponse where
  content : Option Py
  tool_calls : List ToolCallRequest
  finish_reason : Py
  usage : List (Py × Nat)

/-- Modelled from the spec: `has_tool_calls` is derived, true iff
`tool_calls` is non-empty. -/
def LLMResponse.has_tool_calls (r : LLMResponse) : Bool :=
  !r.tool_calls.isEmpty

/-- A transcript message (the `dict` records appended to `messages` in
`SubagentManager._run_subagent`).  Tool-call arguments recorded on assistant
turns are kept structurally (the source serialises them with `json.dumps`). -/
structure Msg where
  role : Py
  content : Py
  tool_call_id : Option Py := none
  name : Option Py := none
  tool_calls : Option (List ToolCallRequest) := none

/-- Modelled from the spec: the outbound-channel message shape
(`InboundMessage` in `nanobot/bus/events.py`, which is not under `src/`):
`{channel, sender_id, chat_id, content}`. -/
structure InboundMessage where
  channel : Py
  sender_id : Py
  chat_id : Py
  content : Py

/-- The `(channel, chat_id)` origin captured at spawn time. -/
structure Origin where
  channel : Py
  chat_id : Py

/-! ## Registry model (`nanobot/providers/registry.py` is not under `src/`). -/

/-- A scalar request-parameter value (entries of the `kwargs` dict that the
model overrides manipulate). -/
inductive PVal where
  | str (v : Py)
  | nat (v : Nat)
  | rat (v : Rat)
  deriving DecidableEq

/-- A parameter dictionary, insertion-ordered. -/
abbrev Params := List (Py × PVal)

/-- Python `dict` single-key assignment: overwrite in place, else append. -/
def dictSet (ps : Params) (k : Py) (v : PVal) : Params :=
  if ps.any (fun kv => kv.1 = k) then
    ps.map (fun kv => if kv.1 = k then (k, v) else kv)
  else
    ps ++ [(k, v)]

/-- Python `dict.update`: assign every key of `ov` in order. -/
def dictUpdate (ps : Params) (ov : Params) : Params :=
  ov.foldl (fun acc kv => dictSet acc kv.1 kv.2) ps

/-- Modelled from the spec: `ProviderSpec` from `nanobot/providers/registry.py`
(not under `src/`): keyed by a model-name substring (`matchKey`), with a
routing prefix (`litellmPrefix`, source field `litellm_prefix`), prefixes
that suppress auto-prefixing (`skipPrefixes`, source field `skip_prefixes`)
and an ordered list of (substring pattern, parameter override) pairs. -/
structure ProviderSpec where
  matchKey : Py
  litellmPrefix : Py
  skipPrefixes : List Py
  model_overrides : List (Py × Params)

/-- Modelled from the spec: `GatewaySpec` from `nanobot/providers/registry.py`
(not under `src/`): identity `name`, `is_local`, a routing prefix
(`litellmPrefix`, source field `litellm_prefix`), `stripModelPrefix`
(source field `strip_model_prefix`) and ordered model overrides.
Credential/environment fields are omitted: no claim touches them. -/
structure GatewaySpec where
  name : Py
  is_local : Bool
  litellmPrefix : Py
  stripModelPrefix : Bool
  model_overrides : List (Py × Params)

/-- Modelled from the spec: `find_by_model` from `nanobot/providers/registry.py`
(not under `src/`): matches by case-insensitive substring against the model
name, first match in table order wins. -/
def find_by_model (table : List ProviderSpec) (model : Py) : Option ProviderSpec :=
  table.find? (fun s => isSubstrOf s.matchKey (pyLower model))

/-! ## Provider router embedding (`nanobot/providers/litellm_provider.py`,
`nanobot/providers/openai_sdk_provider.py`).

`json.loads` is an external collaborator and is passed as an oracle
`loads : Py → Option PyVal` (`none` models `json.JSONDecodeError`); network
transports are oracles returning `Except`, whose `.error` constructor models
an exception raised while executing the request. -/

/-- A raw tool call as delivered by any of the three wire shapes:
`{id, function: {name, arguments}}`, where `arguments` is usually a
JSON-encoded string but is kept as delivered when it is not a string. -/
structure RawTC where
  id : Py
  name : Py
  arguments : PyVal

/-- Embeds the argument-handling block that all three response parsers
repeat verbatim: a string argument is `json.loads`-parsed, falling back to
`{"raw": <original string>}` on `json.JSONDecodeError`; a non-string
argument is kept as-is (`isinstance(args, str)` check). -/
def parse_tool_arguments (loads : Py → Option PyVal) (args : PyVal) : PyVal :=
  match args with
  | .str s =>
    match loads s with
    | some v => v
    | none => .dict [(py "raw", .str s)]
  | v => v

/-- Builds one `ToolCallRequest` from a raw tool call (shared body of the
three parsers). -/
def parse_raw_tc (loads : Py → Option PyVal) (tc : RawTC) : ToolCallRequest :=
  { id := tc.id, name := tc.name, arguments := parse_tool_arguments loads tc.arguments }

/-- Raw LiteLLM response message: `content` may be `None`; `tool_calls`
may be absent/`None` (`none`) or present (possibly empty, which Python
truthiness treats like absent). -/
structure RawLiteMsg where
  content : Option Py
  tool_calls : Option (List RawTC)

structure RawLiteChoice where
  message : RawLiteMsg
  finish_reason : Option Py

/-- LiteLLM usage object (typed integers). -/
structure RawLiteUsage where
  prompt_tokens : Nat
  completion_tokens : Nat
  total_tokens : Nat

/-- Raw LiteLLM response.  `usage := none` models both an absent `usage`
attribute and a falsy one (`hasattr(response, "usage") and response.usage`). -/
structure RawLite where
  choices : List RawLiteChoice
  usage : Option RawLiteUsage

/-- Embeds `LiteLLMProvider._parse_litellm_response`.  The `.error` result
models the `IndexError` that `response.choices[0]` raises on an empty
`choices` list (Python renders it "list index out of range"); it is caught
by the `try`/`except` in `chat`. -/
def parse_litellm_response (loads : Py → Option PyVal) (r : RawLite) :
    Except Py LLMResponse :=
  match r.choices with
  | [] => .error (py "list index out of range")
  | choice :: _ =>
    let tool_calls : List ToolCallRequest :=
      match choice.message.tool_calls with
      | some (tc :: tcs) => (tc :: tcs).map (parse_raw_tc loads)
      | _ => []
    let usage : List (Py × Nat) :=
      match r.usage with
      | some u =>
        [(py "prompt_tokens", u.prompt_tokens),
         (py "completion_tokens", u.completion_tokens),
         (py "total_tokens", u.total_tokens)]
      | none => []
    .ok { content := choice.message.content,
          tool_calls := tool_calls,
          finish_reason := pyOr choice.finish_reason (py "stop"),
          usage := usage }

/-- Raw OpenCode Zen response message (a parsed JSON object): optional
`content`, optional `reasoning`, optional `tool_calls`. -/
structure OcMsg where
  content : Option Py
  reasoning : Option Py
  tool_calls : Option (List RawTC)

/-- OpenCode choice; `finish_reason := none` models an absent key
(`choice.get("finish_reason", "stop")`). -/
structure OcChoice where
  message : OcMsg
  finish_reason : Option Py

/-- OpenCode usage object with per-field defaults
(`usage_data.get("prompt_tokens", 0)` etc.). -/
structure OcUsage where
  prompt_tokens : Option Nat
  completion_tokens : Option Nat
  total_tokens : Option Nat

/-- Raw OpenCode Zen response.  `usage := none` models an absent or falsy
`result.get("usage")` (an empty dict is falsy). -/
structure RawOc where
  choices : List OcChoice
  usage : Option OcUsage

/-- Embeds `LiteLLMProvider._parse_opencode_response`.  The `.error` result
models the `IndexError` raised by `result["choices"][0]` on an empty list;
it is caught by the `try`/`except` in `_opencode_chat`. -/
def parse_opencode_response (loads : Py → Option PyVal) (r : RawOc) :
    Except Py LLMResponse :=
  match r.choices with
  | [] => .error (py "list index out of range")
  | choice :: _ =>
    let tool_calls : List ToolCallRequest :=
      match choice.message.tool_calls with
      | some (tc :: tcs) => (tc :: tcs).map (parse_raw_tc loads)
      | _ => []
    let content : Py := pyOr choice.message.content []
    let content : Py :=
      if content = [] then
        match choice.message.reasoning with
        | some rs => if rs = [] then content else rs
        | none => content
      else content
    let usage : List (Py × Nat) :=
      match r.usage with
      | some u =>
        [(py "prompt_tokens", u.prompt_tokens.getD 0),
         (py "completion_tokens", u.completion_tokens.getD 0),
         (py "total_tokens", u.total_tokens.getD 0)]
      | none => []
    .ok { content := some content,
          tool_calls := tool_calls,
          finish_reason := choice.finish_reason.getD (py "stop"),
          usage := usage }

/-- Raw OpenAI SDK response message. -/
structure AiMsg where
  content : Option Py
  tool_calls : Option (List RawTC)

structure AiChoice where
  message : AiMsg
  finish_reason : Option Py

/-- OpenAI SDK usage object whose integer fields may be `None`
(`response.usage.prompt_tokens or 0`). -/
structure AiUsage where
  prompt_tokens : Option Nat
  completion_tokens : Option Nat
  total_tokens : Option Nat

/-- Raw OpenAI SDK response.  `usage := none` models a falsy
`response.usage`. -/
structure RawAi where
  choices : List AiChoice
  usage : Option AiUsage

/-- Embeds `OpenAISDKProvider._parse_response`.  The `.error` result models
the `IndexError` raised by `response.choices[0]` on an empty list; it is
caught by the `try`/`except` in `chat`. -/
def parse_openai_response (loads : Py → Option PyVal) (r : RawAi) :
    Except Py LLMResponse :=
  match r.choices with
  | [] => .error (py "list index out of range")
  | choice :: _ =>
    let tool_calls : List ToolCallRequest :=
      match choice.message.tool_calls with
      | some (tc :: tcs) => (tc :: tcs).map (parse_raw_tc loads)
      | _ => []
    let usage : List (Py × Nat) :=
      match r.usage with
      | some u =>
        [(py "prompt_tokens", u.prompt_tokens.getD 0),
         (py "completion_tokens", u.completion_tokens.getD 0),
         (py "total_tokens", u.total_tokens.getD 0)]
      | none => []
    .ok { content := some (pyOr choice.message.content []),
          tool_calls := tool_calls,
          finish_reason := pyOr choice.finish_reason (py "stop"),
          usage := usage }

/-- The state of a constructed `LiteLLMProvider` that the per-call logic
reads: the detected gateway (`self._gateway`, result of `find_gateway`),
the registry table backing `find_by_model`, and the constructor arguments.
Credential/environment side effects are not modelled: no claim touches
them. -/
structure LiteProvider where
  gateway : Option GatewaySpec
  table : List ProviderSpec
  default_model : Py
  api_base : Option Py
  extra_headers : List (Py × Py)

/-- Embeds `self.is_opencode = bool(self._gateway and self._gateway.name == "opencode")`. -/
def LiteProvider.is_opencode (p : LiteProvider) : Bool :=
  match p.gateway with
  | some g => g.name = py "opencode"
  | none => false

/-- The gateway branch of `LiteLLMProvider._resolve_model` (non-opencode
gateway): optionally strip to the last model-name component, then apply the
gateway prefix unless it is empty or already present. -/
def resolve_gateway (gw : GatewaySpec) (model : Py) : Py :=
  let model := if gw.stripModelPrefix then lastComponent model else model
  if gw.litellmPrefix ≠ [] ∧ ¬ (gw.litellmPrefix ++ py "/").isPrefixOf model then
    gw.litellmPrefix ++ py "/" ++ model
  else model

/-- The standard-provider branch of `LiteLLMProvider._resolve_model`:
auto-prefix for a known provider spec unless the model already carries one
of its excluded prefixes. -/
def resolve_standard (table : List ProviderSpec) (model : Py) : Py :=
  match find_by_model table model with
  | some spec =>
    if spec.litellmPrefix ≠ [] ∧
        ¬ spec.skipPrefixes.any (fun s => s.isPrefixOf model) then
      spec.litellmPrefix ++ py "/" ++ model
    else model
  | none => model

/-- Embeds `LiteLLMProvider._resolve_model` (its three return paths are the
opencode strip, `resolve_gateway`, and `resolve_standard`). -/
def resolve_model (p : LiteProvider) (model : Py) : Py :=
  if p.is_opencode then
    if (py "opencode/").isPrefixOf (pyLower model) then afterFirstSlash model else model
  else
    match p.gateway with
    | some gw => resolve_gateway gw model
    | none => resolve_standard p.table model

/-- First pattern of `ovs` that is a substring of the lowercased model name
(the `for pattern, overrides in ...: if pattern in model_lower: ...; return`
loop of `_apply_model_overrides`). -/
def firstOverride (ovs : List (Py × Params)) (model_lower : Py) : Option Params :=
  match ovs with
  | [] => none
  | (pat, ov) :: rest =>
    if isSubstrOf pat model_lower then some ov else firstOverride rest model_lower

/-- Embeds `LiteLLMProvider._apply_model_overrides`: provider-spec patterns
are checked first and apply with an early `return`; the gateway patterns are
only reached when no provider-spec pattern matched. -/
def apply_model_overrides (p : LiteProvider) (model : Py) (kwargs : Params) : Params :=
  let model_lower := pyLower model
  let gatewayPart : Params :=
    match p.gateway with
    | some g =>
      match firstOverride g.model_overrides model_lower with
      | some ov => dictUpdate kwargs ov
      | none => kwargs
    | none => kwargs
  match find_by_model p.table model with
  | some spec =>
    match firstOverride spec.model_overrides model_lower with
    | some ov => dictUpdate kwargs ov
    | none => gatewayPart
  | none => gatewayPart

/-- A transport failure on the OpenCode direct path:
`httpx.HTTPStatusError` (carrying the status code and body text used in the
error message) or any other exception (carrying `str(e)`). -/
inductive OcErr where
  | httpStatus (code : Nat) (text : Py)
  | other (msg : Py)

/-- The JSON payload posted by `_opencode_chat`. -/
structure OcPayload where
  model : Py
  messages : List Msg
  max_tokens : Nat
  temperature : Rat
  tools : Option (List PyVal)
  tool_choice_auto : Bool

/-- Builds the `_opencode_chat` payload: the temperature is forced to `1.0`
when the model name contains `"kimi-k2.5"`, and `tools`/`tool_choice` are
attached only when `tools` is truthy (non-`None` and non-empty). -/
def opencode_payload (model : Py) (messages : List Msg) (tools : Option (List PyVal))
    (max_tokens : Nat) (temperature : Rat) : OcPayload :=
  let temperature : Rat :=
    if isSubstrOf (py "kimi-k2.5") (pyLower model) then 1 else temperature
  let hasTools : Bool :=
    match tools with
    | some (_ :: _) => true
    | _ => false
  { model := model, messages := messages, max_tokens := max_tokens,
    temperature := temperature,
    tools := if hasTools then tools else none,
    tool_choice_auto := hasTools }

/-- Embeds `LiteLLMProvider._opencode_chat` with the HTTP POST as oracle
`opost` (URL and header assembly are untouched by any claim and are left to
the oracle). -/
def opencode_chat (opost : OcPayload → Except OcErr RawOc)
    (loads : Py → Option PyVal) (model : Py) (messages : List Msg)
    (tools : Option (List PyVal)) (max_tokens : Nat) (temperature : Rat) :
    LLMResponse :=
  let payload := opencode_payload model messages tools max_tokens temperature
  match opost payload with
  | .ok raw =>
    match parse_opencode_response loads raw with
    | .ok resp => resp
    | .error e =>
      { content := some (py "Error calling OpenCode: " ++ e),
        tool_calls := [], finish_reason := py "error", usage := [] }
  | .error (.httpStatus code text) =>
    { content := some (py "OpenCode API error " ++ py (toString code) ++ py ": " ++ text),
      tool_calls := [], finish_reason := py "error", usage := [] }
  | .error (.other e) =>
    { content := some (py "Error calling OpenCode: " ++ e),
      tool_calls := [], finish_reason := py "error", usage := [] }

/-- The request handed to the LiteLLM `acompletion` oracle on the shared
transport path: the scalar `kwargs` (after overrides) plus the structured
arguments. -/
structure LiteRequest where
  params : Params
  messages : List Msg
  api_base : Option Py
  extra_headers : List (Py × Py)
  tools : Option (List PyVal)
  tool_choice_auto : Bool

/-- Builds the shared-path request of `LiteLLMProvider.chat` (lines 166-188):
resolve the model name, assemble scalar kwargs, apply the first matching
model override, and attach `api_base` / `extra_headers` / `tools` when
present. -/
def build_lite_request (p : LiteProvider) (messages : List Msg)
    (tools : Option (List PyVal)) (raw_model : Py) (max_tokens : Nat)
    (temperature : Rat) : LiteRequest :=
  let model := resolve_model p raw_model
  let kwargs : Params :=
    [(py "model", .str model),
     (py "max_tokens", .nat max_tokens),
     (py "temperature", .rat temperature)]
  let kwargs := apply_model_overrides p model kwargs
  let hasTools : Bool :=
    match tools with
    | some (_ :: _) => true
    | _ => false
  { params := kwargs, messages := messages, api_base := p.api_base,
    extra_headers := p.extra_headers,
    tools := if hasTools then tools else none,
    tool_choice_auto := hasTools }

/-- Embeds `LiteLLMProvider.chat`: route to the OpenCode direct path when
the opencode gateway was detected or the model name starts with
`"opencode/"` (stripping that prefix), otherwise send through the LiteLLM
shared path (`acomp` oracle) and convert any exception into an error-shaped
`LLMResponse`. -/
def litellm_chat (p : LiteProvider)
    (acomp : LiteRequest → Except Py RawLite)
    (opost : OcPayload → Except OcErr RawOc)
    (loads : Py → Option PyVal)
    (messages : List Msg) (tools : Option (List PyVal)) (model : Option Py)
    (max_tokens : Nat) (temperature : Rat) : LLMResponse :=
  let raw_model := model.getD p.default_model
  if p.is_opencode || (py "opencode/").isPrefixOf (pyLower raw_model) then
    let clean_model :=
      if (py "opencode/").isPrefixOf (pyLower raw_model) then
        afterFirstSlash raw_model
      else raw_model
    opencode_chat opost loads clean_model messages tools max_tokens temperature
  else
    match acomp (build_lite_request p messages tools raw_model max_tokens temperature) with
    | .ok raw =>
      match parse_litellm_response loads raw with
      | .ok resp => resp
      | .error e =>
        { content := some (py "Error calling LLM: " ++ e),
          tool_calls := [], finish_reason := py "error", usage := [] }
    | .error e =>
      { content := some (py "Error calling LLM: " ++ e),
        tool_calls := [], finish_reason := py "error", usage := [] }

/-- The kwargs passed to `client.chat.completions.create` by
`OpenAISDKProvider.chat`. -/
structure AiKwargs where
  model : Py
  messages : List Msg
  max_tokens : Nat
  temperature : Rat
  tools : Option (List PyVal)
  tool_choice_auto : Bool

/-- Builds the OpenAI SDK request kwargs: strip everything up to the first
`/` when the model name contains one, force `temperature = 1.0` when the
(stripped) model name contains `"kimi-k2.5"`, and attach `tools` /
`tool_choice` only when `tools` is truthy. -/
def openai_sdk_kwargs (default_model : Py) (messages : List Msg)
    (tools : Option (List PyVal)) (model : Option Py) (max_tokens : Nat)
    (temperature : Rat) : AiKwargs :=
  let model := model.getD default_model
  let model := if model.contains '/' then afterFirstSlash model else model
  let temperature : Rat :=
    if isSubstrOf (py "kimi-k2.5") (pyLower model) then 1 else temperature
  let hasTools : Bool :=
    match tools with
    | some (_ :: _) => true
    | _ => false
  { model := model, messages := messages, max_tokens := max_tokens,
    temperature := temperature,
    tools := if hasTools then tools else none,
    tool_choice_auto := hasTools }

/-- Embeds `OpenAISDKProvider.chat` with the SDK call as oracle `create`:
any exception raised inside the `try` is converted into an error-shaped
`LLMResponse`. -/
def openai_chat (default_model : Py) (create : AiKwargs → Except Py RawAi)
    (loads : Py → Option PyVal) (messages : List Msg)
    (tools : Option (List PyVal)) (model : Option Py) (max_tokens : Nat)
    (temperature : Rat) : LLMResponse :=
  let kwargs := openai_sdk_kwargs default_model messages tools model max_tokens temperature
  match create kwargs with
  | .ok raw =>
    match parse_openai_response loads raw with
    | .ok resp => resp
    | .error e =>
      { content := some (py "Error calling OpenAI SDK: " ++ e),
        tool_calls := [], finish_reason := py "error", usage := [] }
  | .error e =>
    { content := some (py "Error calling OpenAI SDK: " ++ e),
      tool_calls := [], finish_reason := py "error", usage := [] }

/-! ## Subagent manager embedding (`nanobot/agent/subagent.py`).

The provider and the tool registry are external at this layer: the provider
call is an oracle `chatO` from the current transcript to an
`Except Py LLMResponse` (`.error` models an exception raised by
`provider.chat`), and tool execution is an oracle `execO` from the current
transcript and the tool call to an `Except Py Py` (`.error` models an
exception raised by `tools.execute`, which `_run_subagent` does not catch
locally).  Both oracles receive the full transcript built so far, so any
concrete execution is an instance of some oracle pair. -/

/-- The keys of the `all_tools` dict of `SubagentManager._build_tools`, in
source order. -/
def all_subagent_tools : List Py :=
  [py "read_file", py "write_file", py "list_dir", py "exec_shell",
   py "web_search", py "web_fetch", py "browser"]

/-- The `registry.register` fold: registration is keyed by name and a later
registration for a name replaces the earlier one, so the registry's key
list keeps the first occurrence of each name. -/
def register_names (names : List Py) : List Py :=
  names.foldl (fun acc n => if acc.contains n then acc else acc ++ [n]) []

/-- Embeds `SubagentManager._build_tools`, reduced to the registered tool
names (each `all_tools` entry is a fresh tool instance keyed by that name):
`names_to_use = tool_names if tool_names else list(all_tools.keys())`, then
every requested name present in `all_tools` is registered. -/
def build_tools (tool_names : Option (List Py)) : List Py :=
  let names_to_use : List Py :=
    match tool_names with
    | some (n :: rest) => n :: rest
    | _ => all_subagent_tools
  register_names (names_to_use.filter (fun n => all_subagent_tools.contains n))

/-- Embeds `SubagentManager._announce_result`: a single `InboundMessage`
published on the bus, addressed to `"<origin_channel>:<origin_chat_id>"`. -/
def announce_result (label task result : Py) (origin : Origin) (status : Py) :
    InboundMessage :=
  let status_text := if status = py "ok" then py "completed" else py "failed"
  { channel := py "system",
    sender_id := py "subagent",
    chat_id := origin.channel ++ py ":" ++ origin.chat_id,
    content :=
      py "[Subagent '" ++ label ++ py "' " ++ status_text ++ py "]\n\nTask: " ++
      task ++ py "\n\nResult:\n" ++ result ++
      py "\n\nSummarize naturally for the user. Keep brief (1-2 sentences)." }

/-- Embeds `SubagentManager._build_default_prompt`. -/
def build_default_prompt (task workspace : Py) : Py :=
  py "# Subagent\n\nYou are a subagent spawned to complete a specific task.\n\n## Your Task\n" ++
  task ++
  py "\n\n## Rules\n1. Stay focused - complete only the assigned task\n2. Your final response will be reported to the main agent\n3. Be concise but informative\n\n## Workspace\n" ++
  workspace ++
  py "\n\nWhen done, provide a clear summary of findings or actions."

/-- The assistant message appended when a response carries tool calls
(`content` falls back to `""`, the calls are recorded). -/
def assistant_msg (resp : LLMResponse) : Msg :=
  { role := py "assistant",
    content := pyOr resp.content [],
    tool_calls := some resp.tool_calls }

/-- The tool message appended after executing one tool call. -/
def tool_msg (tc : ToolCallRequest) (result : Py) : Msg :=
  { role := py "tool", content := result,
    tool_call_id := some tc.id, name := some tc.name }

/-- Executes the tool calls of one turn in order, appending one tool
message each; an exception from `execO` propagates. -/
def execAll (execO : List Msg → ToolCallRequest → Except Py Py) :
    List Msg → List ToolCallRequest → Except Py (List Msg)
  | msgs, [] => .ok msgs
  | msgs, tc :: rest =>
    match execO msgs tc with
    | .error e => .error e
    | .ok result => execAll execO (msgs ++ [tool_msg tc result]) rest

/-- Embeds the `for _ in range(max_iterations)` loop of
`SubagentManager._run_subagent`.  Returns the loop outcome together with
the number of provider chat calls made:
`.ok none` is the loop running out of iterations without a break,
`.ok (some c)` is a break on a tool-call-free response with content `c`
(`c = none` when that content was `None`), and `.error e` is an exception
from the provider oracle or a tool execution. -/
def runLoop (chatO : List Msg → Except Py LLMResponse)
    (execO : List Msg → ToolCallRequest → Except Py Py) :
    Nat → List Msg → Except Py (Option (Option Py)) × Nat
  | 0, _ => (.ok none, 0)
  | fuel + 1, msgs =>
    match chatO msgs with
    | .error e => (.error e, 1)
    | .ok resp =>
      if resp.has_tool_calls then
        match execAll execO (msgs ++ [assistant_msg resp]) resp.tool_calls with
        | .error e => (.error e, 1)
        | .ok msgs2 =>
          let rest := runLoop chatO execO fuel msgs2
          (rest.1, rest.2 + 1)
      else
        (.ok (some resp.content), 1)

/-- The fallback placeholder result of `_run_subagent`. -/
def fallback_result : Py := py "Task completed but no final response generated."

/-- Embeds `SubagentManager._run_subagent`: seed the transcript with the
system prompt (custom, or the generated default when the custom one is
absent or empty) and the task text, run the bounded loop, and publish
exactly the announcements the source publishes — one "ok" announcement on
normal completion (with the placeholder when no final response was
produced), or one "error" announcement when any exception was raised.
The returned list is the sequence of messages published to the bus. -/
def run_subagent (chatO : List Msg → Except Py LLMResponse)
    (execO : List Msg → ToolCallRequest → Except Py Py)
    (task label : Py) (system_prompt : Option Py) (origin : Origin)
    (workspace : Py) : List InboundMessage :=
  let prompt := pyOr system_prompt (build_default_prompt task workspace)
  let msgs0 : List Msg :=
    [{ role := py "system", content := prompt },
     { role := py "user", content := task }]
  match (runLoop chatO execO 15 msgs0).1 with
  | .ok outcome =>
    let final_result : Py :=
      match outcome with
      | some (some c) => c
      | _ => fallback_result
    [announce_result label task final_result origin (py "ok")]
  | .error e =>
    [announce_result label task (py "Error: " ++ e) origin (py "error")]

/-- Reads a token count out of a usage mapping: an absent key counts zero
tokens. -/
def usage_count (u : List (Py × Nat)) (k : Py) : Nat :=
  (u.lookup k).getD 0

/-! ## Helper lemmas. -/

theorem py_prefix_ne_nil {pre : Py} (hp : pre ≠ []) (t : Py) : pre ++ t ≠ [] := by
  cases pre with
  | nil => exact absurd rfl hp
  | cons c l => simp

theorem lastComponent_no_slash (s : Py) : '/' ∉ lastComponent s := by
  induction s with
  | nil => simp [lastComponent]
  | cons c t ih =>
    by_cases hc : c = '/'
    · simpa [lastComponent, hc] using ih
    · by_cases ht : '/' ∈ t
      · simpa [lastComponent, hc, ht] using ih
      · simp [lastComponent, hc, ht]
        exact fun h => hc h.symm

theorem lastComponent_append (p q : Py) :
    lastComponent (p ++ '/' :: q) = lastComponent q := by
  induction p with
  | nil => simp [lastComponent]
  | cons c p ih =>
    by_cases hc : c = '/'
    · simpa [lastComponent, hc] using ih
    · have hmem : '/' ∈ p ++ '/' :: q := by simp
      simp [lastComponent, hc, hmem, ih]

theorem lastComponent_eq_self {s : Py} (h : '/' ∉ s) : lastComponent s = s := by
  induction s with
  | nil => rfl
  | cons c t ih =>
    have hc : ¬ c = '/' := fun hcc => h (hcc ▸ List.mem_cons_self c t)
    have ht : '/' ∉ t := fun htt => h (List.mem_cons_of_mem c htt)
    simp [lastComponent, hc, ht]

theorem isPrefixOf_append_self (a b : Py) : a.isPrefixOf (a ++ b) = true := by
  induction a with
  | nil => simp [List.isPrefixOf]
  | cons c l ih => simp [List.isPrefixOf, ih]

theorem not_isPrefixOf_of_slash {p l : Py} (hp : '/' ∈ p) (hl : '/' ∉ l) :
    p.isPrefixOf l = false := by
  induction p generalizing l with
  | nil => cases hp
  | cons c p ih =>
    cases l with
    | nil => rfl
    | cons d l =>
      have hd : ¬ d = '/' := fun hdd => hl (hdd ▸ List.mem_cons_self d l)
      have hl2 : '/' ∉ l := fun hll => hl (List.mem_cons_of_mem d hll)
      rcases List.mem_cons.mp hp with hc | hc
      · subst hc
        have hne : ('/' : Char) ≠ d := fun h => hd h.symm
        have hbeq : (('/' : Char) == d) = false := beq_eq_false_iff_ne.mpr hne
        simp [List.isPrefixOf, hbeq]
      · simp [List.isPrefixOf, ih hc hl2]

theorem not_prefix_of_slash {p l : Py} (hp : '/' ∈ p) (hl : '/' ∉ l) :
    ¬ p <+: l :=
  fun h => hl (h.sublist.subset hp)

theorem runLoop_count_le (chatO : List Msg → Except Py LLMResponse)
    (execO : List Msg → ToolCallRequest → Except Py Py) :
    ∀ fuel msgs, (runLoop chatO execO fuel msgs).2 ≤ fuel := by
  intro fuel
  induction fuel with
  | zero => intro msgs; simp [runLoop]
  | succ n ih =>
    intro msgs
    unfold runLoop
    cases chatO msgs with
    | error e => simp
    | ok resp =>
      by_cases h : resp.has_tool_calls = true
      · simp only [h, if_true]
        cases execAll execO (msgs ++ [assistant_msg resp]) resp.tool_calls with
        | error e => simp
        | ok msgs2 => simpa using Nat.succ_le_succ (ih msgs2)
      · simp only [Bool.not_eq_true] at h
        simp [h]

/-! ## Claims. -/

/-- C10: a spawn whose tool allowlist is the empty list builds the subagent
with the full set of available tools — identical to passing no allowlist at
all — rather than with zero tools. -/
theorem c10_empty_allowlist_yields_all_tools :
    build_tools (some []) = build_tools none ∧
    build_tools none = all_subagent_tools := by
  constructor <;> rfl

/-- C4: tool-call argument parsing never raises; a string that the JSON
parser accepts parses to the equivalent mapping, and a string it rejects
yields the mapping from "raw" to the original string. -/
theorem c4_tool_argument_parsing (loads : Py → Option PyVal) (s : Py) :
    (∀ v, loads s = some v → parse_tool_arguments loads (.str s) = v) ∧
    (loads s = none →
      parse_tool_arguments loads (.str s) = .dict [(py "raw", .str s)]) := by
  constructor
  · intro v hv
    simp [parse_tool_arguments, hv]
  · intro hv
    simp [parse_tool_arguments, hv]

theorem c4_tool_argument_parsing_witness :
    parse_tool_arguments
        (fun t => if t = py "valid" then some (PyVal.int 1) else none)
        (.str (py "valid")) = PyVal.int 1 ∧
    parse_tool_arguments
        (fun t => if t = py "valid" then some (PyVal.int 1) else none)
        (.str (py "oops")) = .dict [(py "raw", .str (py "oops"))] := by
  constructor
  · exact (c4_tool_argument_parsing
      (fun t => if t = py "valid" then some (PyVal.int 1) else none)
      (py "valid")).1 (PyVal.int 1) (by simp)
  · exact (c4_tool_argument_parsing
      (fun t => if t = py "valid" then some (PyVal.int 1) else none)
      (py "oops")).2 (by simp [py])

/-- C5: on the shared transport path, exactly the single first-matching
parameter override is applied to the request parameters, provider-spec
overrides being consulted before gateway overrides; even when both a
provider spec and the gateway carry a matching pattern, only the
provider-spec override is applied, and when nothing matches the parameters
are untouched. -/
theorem c5_single_first_matching_override (p : LiteProvider) (model : Py)
    (kwargs : Params) :
    apply_model_overrides p model kwargs =
      match
        ((find_by_model p.table model).bind fun spec =>
          firstOverride spec.model_overrides (pyLower model)) <|>
        (p.gateway.bind fun g =>
          firstOverride g.model_overrides (pyLower model)) with
      | some ov => dictUpdate kwargs ov
      | none => kwargs := by
  unfold apply_model_overrides
  cases hs : find_by_model p.table model with
  | none =>
    cases hg : p.gateway with
    | none => simp [Option.orElse]
    | some g =>
      cases ho : firstOverride g.model_overrides (pyLower model) <;>
        simp [Option.orElse, ho]
  | some spec =>
    cases hf : firstOverride spec.model_overrides (pyLower model) with
    | some ov => simp [Option.orElse, hf]
    | none =>
      cases hg : p.gateway with
      | none => simp [Option.orElse, hf]
      | some g =>
        cases ho : firstOverride g.model_overrides (pyLower model) <;>
          simp [Option.orElse, hf, ho]

/-- C7: a direct-transport response whose message has absent or empty
content but a non-empty reasoning field parses to an LLMResponse whose
content equals the reasoning text. -/
theorem c7_reasoning_substituted_for_empty_content
    (loads : Py → Option PyVal) (r : RawOc) (choice : OcChoice)
    (rest : List OcChoice) (rs : Py)
    (hch : r.choices = choice :: rest)
    (hc : choice.message.content = none ∨ choice.message.content = some [])
    (hr : choice.message.reasoning = some rs)
    (hrs : rs ≠ []) :
    ∃ resp, parse_opencode_response loads r = .ok resp ∧
      resp.content = some rs := by
  unfold parse_opencode_response
  rw [hch]
  have hcontent : pyOr choice.message.content [] = [] := by
    rcases hc with hc | hc <;> simp [pyOr, hc]
  refine ⟨_, rfl, ?_⟩
  simp [hcontent, hr, hrs]

theorem c7_reasoning_substituted_for_empty_content_witness :
    ∃ resp,
      parse_opencode_response (fun _ => none)
        ⟨[⟨⟨some [], some (py "step by step"), none⟩, some (py "stop")⟩], none⟩ =
        .ok resp ∧
      resp.content = some (py "step by step") :=
  c7_reasoning_substituted_for_empty_content (fun _ => none)
    ⟨[⟨⟨some [], some (py "step by step"), none⟩, some (py "stop")⟩], none⟩
    ⟨⟨some [], some (py "step by step"), none⟩, some (py "stop")⟩
    [] (py "step by step") rfl (Or.inr rfl) rfl (by simp [py])

/-- C3: on every transport path, an exception raised while executing the
request (network error, non-2xx status on the direct path, or any other
exception) is caught and returned as a normal LLMResponse with
finish_reason "error" and non-empty content; chat never propagates the
failure (the chat embeddings are total functions). -/
theorem c3_transport_errors_are_error_responses (p : LiteProvider)
    (loads : Py → Option PyVal) (messages : List Msg)
    (tools : Option (List PyVal)) (model : Option Py) (mt : Nat) (temp : Rat)
    (e etext dm : Py) (code : Nat) :
    ((litellm_chat p (fun _ => .error e) (fun _ => .error (.other e)) loads
        messages tools model mt temp).finish_reason = py "error" ∧
      ∃ s, (litellm_chat p (fun _ => .error e) (fun _ => .error (.other e))
        loads messages tools model mt temp).content = some s ∧ s ≠ []) ∧
    ((litellm_chat p (fun _ => .error e)
        (fun _ => .error (.httpStatus code etext)) loads messages tools model
        mt temp).finish_reason = py "error" ∧
      ∃ s, (litellm_chat p (fun _ => .error e)
        (fun _ => .error (.httpStatus code etext)) loads messages tools model
        mt temp).content = some s ∧ s ≠ []) ∧
    ((openai_chat dm (fun _ => .error e) loads messages tools model mt
        temp).finish_reason = py "error" ∧
      ∃ s, (openai_chat dm (fun _ => .error e) loads messages tools model mt
        temp).content = some s ∧ s ≠ []) := by
  refine ⟨⟨?_, ?_⟩, ⟨?_, ?_⟩, ⟨?_, ?_⟩⟩
  · simp only [litellm_chat, opencode_chat]
    split <;> rfl
  · simp only [litellm_chat, opencode_chat]
    split
    · exact ⟨_, rfl, py_prefix_ne_nil (by decide) _⟩
    · exact ⟨_, rfl, py_prefix_ne_nil (by decide) _⟩
  · simp only [litellm_chat, opencode_chat]
    split <;> rfl
  · simp only [litellm_chat, opencode_chat]
    split
    · exact ⟨_, rfl,
        py_prefix_ne_nil (py_prefix_ne_nil (py_prefix_ne_nil (by decide) _) _) _⟩
    · exact ⟨_, rfl, py_prefix_ne_nil (by decide) _⟩
  · rfl
  · exact ⟨_, rfl, py_prefix_ne_nil (by decide) _⟩

/-- C8: each of the three response parsers tolerates absent usage data
(the resulting usage mapping is empty and every token count reads zero)
and absent tool calls (the resulting tool_calls sequence is empty). -/
theorem c8_absent_usage_and_tool_call_defaults (loads : Py → Option PyVal)
    (rl : RawLite) (cl : RawLiteChoice) (tl : List RawLiteChoice)
    (ro : RawOc) (co : OcChoice) (tlo : List OcChoice)
    (ra : RawAi) (ca : AiChoice) (tla : List AiChoice)
    (h1 : rl.choices = cl :: tl) (h2 : ro.choices = co :: tlo)
    (h3 : ra.choices = ca :: tla) :
    (∃ resp, parse_litellm_response loads rl = .ok resp ∧
      (rl.usage = none →
        resp.usage = [] ∧ ∀ k, usage_count resp.usage k = 0) ∧
      (cl.message.tool_calls = none → resp.tool_calls = [])) ∧
    (∃ resp, parse_opencode_response loads ro = .ok resp ∧
      (ro.usage = none →
        resp.usage = [] ∧ ∀ k, usage_count resp.usage k = 0) ∧
      (co.message.tool_calls = none → resp.tool_calls = [])) ∧
    (∃ resp, parse_openai_response loads ra = .ok resp ∧
      (ra.usage = none →
        resp.usage = [] ∧ ∀ k, usage_count resp.usage k = 0) ∧
      (ca.message.tool_calls = none → resp.tool_calls = [])) := by
  refine ⟨?_, ?_, ?_⟩
  · unfold parse_litellm_response
    rw [h1]
    refine ⟨_, rfl, fun hu => ?_, fun ht => ?_⟩
    · simp [hu, usage_count]
    · simp [ht]
  · unfold parse_opencode_response
    rw [h2]
    refine ⟨_, rfl, fun hu => ?_, fun ht => ?_⟩
    · simp [hu, usage_count]
    · simp [ht]
  · unfold parse_openai_response
    rw [h3]
    refine ⟨_, rfl, fun hu => ?_, fun ht => ?_⟩
    · simp [hu, usage_count]
    · simp [ht]

theorem c8_absent_usage_and_tool_call_defaults_witness :
    (∃ resp,
      parse_litellm_response (fun _ => none)
        ⟨[⟨⟨some (py "hi"), none⟩, some (py "stop")⟩], none⟩ = .ok resp ∧
      resp.usage = [] ∧ resp.tool_calls = []) ∧
    (∃ resp,
      parse_opencode_response (fun _ => none)
        ⟨[⟨⟨some (py "hi"), none, none⟩, some (py "stop")⟩], none⟩ =
        .ok resp ∧ resp.usage = [] ∧ resp.tool_calls = []) ∧
    (∃ resp,
      parse_openai_response (fun _ => none)
        ⟨[⟨⟨some (py "hi"), none⟩, some (py "stop")⟩], none⟩ = .ok resp ∧
      resp.usage = [] ∧ resp.tool_calls = []) := by
  have h := c8_absent_usage_and_tool_call_defaults (fun _ => none)
    ⟨[⟨⟨some (py "hi"), none⟩, some (py "stop")⟩], none⟩
    ⟨⟨some (py "hi"), none⟩, some (py "stop")⟩ []
    ⟨[⟨⟨some (py "hi"), none, none⟩, some (py "stop")⟩], none⟩
    ⟨⟨some (py "hi"), none, none⟩, some (py "stop")⟩ []
    ⟨[⟨⟨some (py "hi"), none⟩, some (py "stop")⟩], none⟩
    ⟨⟨some (py "hi"), none⟩, some (py "stop")⟩ []
    rfl rfl rfl
  obtain ⟨⟨r1, e1, u1, t1⟩, ⟨r2, e2, u2, t2⟩, ⟨r3, e3, u3, t3⟩⟩ := h
  exact ⟨⟨r1, e1, (u1 rfl).1, t1 rfl⟩, ⟨r2, e2, (u2 rfl).1, t2 rfl⟩,
    ⟨r3, e3, (u3 rfl).1, t3 rfl⟩⟩

/-- C1: every subagent run publishes exactly one announcement message to
the outbound channel, addressed to the (channel, chat_id) origin captured
at spawn time, whether the conversation loop succeeds, raises an exception,
or exhausts its iteration budget. -/
theorem c1_exactly_one_announcement (chatO : List Msg → Except Py LLMResponse)
    (execO : List Msg → ToolCallRequest → Except Py Py) (task label : Py)
    (system_prompt : Option Py) (origin : Origin) (workspace : Py) :
    ∃ m, run_subagent chatO execO task label system_prompt origin workspace =
        [m] ∧
      m.channel = py "system" ∧ m.sender_id = py "subagent" ∧
      m.chat_id = origin.channel ++ py ":" ++ origin.chat_id := by
  simp only [run_subagent]
  split
  · exact ⟨_, rfl, rfl, rfl, rfl⟩
  · exact ⟨_, rfl, rfl, rfl, rfl⟩

/-- C2: a conversation run makes at most 15 provider chat calls, and when
the bound is reached without a tool-call-free response the run terminates
normally with the fallback placeholder result (announced with status "ok"),
not with an exception. -/
theorem c2_bounded_model_turns (chatO : List Msg → Except Py LLMResponse)
    (execO : List Msg → ToolCallRequest → Except Py Py) (task label : Py)
    (system_prompt : Option Py) (origin : Origin) (workspace : Py) :
    (∀ msgs, (runLoop chatO execO 15 msgs).2 ≤ 15) ∧
    ((runLoop chatO execO 15
        [{ role := py "system",
           content := pyOr system_prompt (build_default_prompt task workspace) },
         { role := py "user", content := task }]).1 = Except.ok none →
      run_subagent chatO execO task label system_prompt origin workspace =
        [announce_result label task fallback_result origin (py "ok")]) := by
  constructor
  · exact fun msgs => runLoop_count_le chatO execO 15 msgs
  · intro h
    simp only [run_subagent]
    rw [h]

theorem c2_bounded_model_turns_witness :
    run_subagent
      (fun _ => Except.ok
        { content := some [], tool_calls := [⟨py "1", py "noop", PyVal.null⟩],
          finish_reason := py "stop", usage := [] })
      (fun _ _ => Except.ok [])
      (py "task") (py "label") none ⟨py "cli", py "direct"⟩ (py "/ws") =
      [announce_result (py "label") (py "task") fallback_result
        ⟨py "cli", py "direct"⟩ (py "ok")] :=
  (c2_bounded_model_turns
    (fun _ => Except.ok
      { content := some [], tool_calls := [⟨py "1", py "noop", PyVal.null⟩],
        finish_reason := py "stop", usage := [] })
    (fun _ _ => Except.ok [])
    (py "task") (py "label") none ⟨py "cli", py "direct"⟩ (py "/ws")).2 rfl

/-- C6 counterexample: on the OpenAI SDK path, the chat request with
caller-supplied model name "kimi-k2.5/custom" — a name that contains the
override-triggering token — and caller temperature 0.7 produces an outgoing
request whose temperature is 0.7, not 1.0 (the token check runs only after
the name is stripped to "custom"). -/
theorem c6_caller_token_not_forced_counterexample :
    isSubstrOf (py "kimi-k2.5") (pyLower (py "kimi-k2.5/custom")) = true ∧
    (openai_sdk_kwargs (py "gpt-4o") [] none (some (py "kimi-k2.5/custom"))
        4096 (7/10)).temperature = 7/10 ∧
    ¬ ((7 : Rat)/10 = 1) := by
  refine ⟨by decide, rfl, by norm_num⟩

/-- C6 (amended): the temperature override keys on the model name actually
sent in the outgoing request: on the OpenCode direct path, every request
whose (stripped) model name contains "kimi-k2.5" carries temperature 1.0,
and on the OpenAI SDK path, every request whose effective model name after
prefix stripping contains "kimi-k2.5" carries temperature 1.0 — in both
cases regardless of the caller-supplied temperature. -/
theorem c6_effective_model_forces_temperature (messages : List Msg)
    (tools : Option (List PyVal)) (mt : Nat) (temp : Rat) :
    (∀ model : Py, isSubstrOf (py "kimi-k2.5") (pyLower model) = true →
      (opencode_payload model messages tools mt temp).temperature = 1) ∧
    (∀ (dm : Py) (model : Option Py),
      isSubstrOf (py "kimi-k2.5")
          (pyLower (openai_sdk_kwargs dm messages tools model mt temp).model) =
        true →
      (openai_sdk_kwargs dm messages tools model mt temp).temperature = 1) := by
  constructor
  · intro model h
    simp [opencode_payload, h]
  · intro dm model h
    simp [openai_sdk_kwargs] at h ⊢
    simp [h]

theorem c6_effective_model_forces_temperature_witness :
    (opencode_payload (py "kimi-k2.5") [] none 4096 (7/10)).temperature = 1 ∧
    (openai_sdk_kwargs (py "gpt-4o") [] none (some (py "opencode/kimi-k2.5"))
        4096 (7/10)).temperature = 1 := by
  have h := c6_effective_model_forces_temperature [] none 4096 (7/10)
  exact ⟨h.1 (py "kimi-k2.5") (by decide),
    h.2 (py "gpt-4o") (some (py "opencode/kimi-k2.5")) (by decide)⟩

theorem resolve_gateway_idem (gw : GatewaySpec) (m : Py) :
    resolve_gateway gw (resolve_gateway gw m) = resolve_gateway gw m := by
  cases hstrip : gw.stripModelPrefix with
  | true =>
    by_cases hpre : gw.litellmPrefix = []
    · have h1 : resolve_gateway gw m = lastComponent m := by
        simp [resolve_gateway, hstrip, hpre]
      have h2 : resolve_gateway gw (lastComponent m) = lastComponent m := by
        simp [resolve_gateway, hstrip, hpre,
          lastComponent_eq_self (lastComponent_no_slash m)]
      rw [h1, h2]
    · have hm1 : '/' ∉ lastComponent m := lastComponent_no_slash m
      have hslash : '/' ∈ gw.litellmPrefix ++ py "/" :=
        List.mem_append_right _ (show '/' ∈ py "/" by decide)
      have hnp : ¬ (gw.litellmPrefix ++ py "/") <+: lastComponent m :=
        not_prefix_of_slash hslash hm1
      have h1 : resolve_gateway gw m =
          gw.litellmPrefix ++ py "/" ++ lastComponent m := by
        simp [resolve_gateway, hstrip, hpre, hnp]
      have hfold : py "/" ++ lastComponent m = '/' :: lastComponent m := rfl
      have hlast2 :
          lastComponent (gw.litellmPrefix ++ (py "/" ++ lastComponent m)) =
            lastComponent m := by
        rw [hfold, lastComponent_append, lastComponent_eq_self hm1]
      have h2 : resolve_gateway gw (gw.litellmPrefix ++ py "/" ++ lastComponent m) =
          gw.litellmPrefix ++ py "/" ++ lastComponent m := by
        simp [resolve_gateway, hstrip, hpre, hlast2, hnp]
      rw [h1, h2]
  | false =>
    by_cases hpre : gw.litellmPrefix = []
    · have h1 : resolve_gateway gw m = m := by
        simp [resolve_gateway, hstrip, hpre]
      rw [h1]
      exact h1
    · cases hp : (gw.litellmPrefix ++ py "/").isPrefixOf m with
      | true =>
        have h1 : resolve_gateway gw m = m := by
          simp [resolve_gateway, hstrip, hpre, hp]
        rw [h1]
        exact h1
      | false =>
        have h1 : resolve_gateway gw m = gw.litellmPrefix ++ py "/" ++ m := by
          simp [resolve_gateway, hstrip, hpre, hp]
        have h2 : resolve_gateway gw (gw.litellmPrefix ++ py "/" ++ m) =
            gw.litellmPrefix ++ py "/" ++ m := by
          simp [resolve_gateway, hstrip, hpre, isPrefixOf_append_self]
        rw [h1, h2]

theorem resolve_standard_idem (table : List ProviderSpec) (m : Py)
    (hreg : ∀ s ∈ table, ∀ s2 ∈ table, s.litellmPrefix ≠ [] →
      (s.litellmPrefix ++ py "/") ∈ s2.skipPrefixes) :
    resolve_standard table (resolve_standard table m) =
      resolve_standard table m := by
  cases hf : find_by_model table m with
  | none =>
    have h1 : resolve_standard table m = m := by
      simp [resolve_standard, hf]
    rw [h1]
    exact h1
  | some spec =>
    by_cases hpre : spec.litellmPrefix = []
    · have h1 : resolve_standard table m = m := by
        simp [resolve_standard, hf, hpre]
      rw [h1]
      exact h1
    · cases hany : spec.skipPrefixes.any (fun s => s.isPrefixOf m) with
      | true =>
        have h1 : resolve_standard table m = m := by
          simp [resolve_standard, hf, hpre, hany]
        rw [h1]
        exact h1
      | false =>
        have h1 : resolve_standard table m =
            spec.litellmPrefix ++ py "/" ++ m := by
          simp [resolve_standard, hf, hpre, hany]
        rw [h1]
        have hf0 : table.find? (fun s => isSubstrOf s.matchKey (pyLower m)) =
            some spec := hf
        have hs : spec ∈ table := List.mem_of_find?_eq_some hf0
        cases hf2 : find_by_model table (spec.litellmPrefix ++ (py "/" ++ m)) with
        | none =>
          simp [resolve_standard, hf2]
        | some s2 =>
          have hf20 : table.find?
              (fun s => isSubstrOf s.matchKey
                (pyLower (spec.litellmPrefix ++ (py "/" ++ m)))) = some s2 := hf2
          have hs2 : s2 ∈ table := List.mem_of_find?_eq_some hf20
          have hmem := hreg spec hs s2 hs2 hpre
          have hpref : (spec.litellmPrefix ++ py "/") <+:
              spec.litellmPrefix ++ (py "/" ++ m) := by
            rw [← List.append_assoc]
            exact List.prefix_append _ m
          have hB : ¬ ∀ x ∈ s2.skipPrefixes,
              ¬ x <+: spec.litellmPrefix ++ (py "/" ++ m) :=
            fun hall => hall _ hmem hpref
          simp [resolve_standard, hf2, hB]

/-- C9: model-name prefix resolution is idempotent on the gateway path and
on the standard-provider path: applying the resolution function to a name
it has already prefixed returns that name unchanged, never double-prefixing
(for any registry table in which every applied provider prefix is among the
excluded prefixes of every spec). -/
theorem c9_resolve_model_idempotent (p : LiteProvider) (m : Py)
    (hoc : p.is_opencode = false)
    (hreg : ∀ s ∈ p.table, ∀ s2 ∈ p.table, s.litellmPrefix ≠ [] →
      (s.litellmPrefix ++ py "/") ∈ s2.skipPrefixes) :
    resolve_model p (resolve_model p m) = resolve_model p m := by
  cases hgw : p.gateway with
  | some gw =>
    have hres : ∀ x, resolve_model p x = resolve_gateway gw x := by
      intro x
      simp [resolve_model, hoc, hgw]
    simp only [hres]
    exact resolve_gateway_idem gw m
  | none =>
    have hres : ∀ x, resolve_model p x = resolve_standard p.table x := by
      intro x
      simp [resolve_model, hoc, hgw]
    simp only [hres]
    exact resolve_standard_idem p.table m hreg

theorem c9_resolve_model_idempotent_witness :
    resolve_model
        ⟨none, [⟨py "claude", py "anthropic",
          [py "anthropic/", py "openrouter/"], []⟩], py "d", none, []⟩
        (resolve_model
          ⟨none, [⟨py "claude", py "anthropic",
            [py "anthropic/", py "openrouter/"], []⟩], py "d", none, []⟩
          (py "claude-3-5")) =
      resolve_model
        ⟨none, [⟨py "claude", py "anthropic",
          [py "anthropic/", py "openrouter/"], []⟩], py "d", none, []⟩
        (py "claude-3-5") ∧
    resolve_model
        ⟨some ⟨py "openrouter", false, py "openrouter", false, []⟩, [],
          py "d", none, []⟩
        (resolve_model
          ⟨some ⟨py "openrouter", false, py "openrouter", false, []⟩, [],
            py "d", none, []⟩
          (py "anthropic/claude-3-5")) =
      resolve_model
        ⟨some ⟨py "openrouter", false, py "openrouter", false, []⟩, [],
          py "d", none, []⟩
        (py "anthropic/claude-3-5") := by
  constructor
  · exact c9_resolve_model_idempotent
      ⟨none, [⟨py "claude", py "anthropic",
        [py "anthropic/", py "openrouter/"], []⟩], py "d", none, []⟩
      (py "claude-3-5") rfl (by decide)
  · exact c9_resolve_model_idempotent
      ⟨some ⟨py "openrouter", false, py "openrouter", false, []⟩, [],
        py "d", none, []⟩
      (py "anthropic/claude-3-5") (by decide) (by decide)

end Nanobot

